import Mathlib

/-!
Verification of the core of `orchestrator.py` (multi-cloud resource
orchestrator): a shallow embedding of `CacheManager`, credential
validation, the retry configuration, and `get_resource_details`,
together with theorems settling the specification's claims.

Time is modelled as natural-number ticks (seconds); Python values
reaching the cache are modelled by `PyVal`; fallible Python code
returns `Except PyErr`.
-/

namespace Orchestrator

/-- The closed enumeration of providers (`CloudProvider` in the source). -/
inductive CloudProvider where
  | AWS
  | AZURE
  | GCP
  | ORACLE
  | IBM
deriving DecidableEq, Repr

/-- Python values stored in / returned by the core: `None`, strings, and
flat string dictionaries (the payload shapes the core actually handles). -/
inductive PyVal where
  | pyNone : PyVal
  | pyStr : String → PyVal
  | pyDict : List (String × String) → PyVal
deriving DecidableEq, Repr

/-- Python truthiness of a `PyVal` (`None` and empty collections are falsy;
this is the test `if cached_data:` performs in `get_resource_details`). -/
def PyVal.truthy : PyVal → Bool
  | .pyNone => false
  | .pyStr s => !(s == "")
  | .pyDict es => !es.isEmpty

/-- Failures of the opaque provider-client call (`self.clients[...]` access
and the remote API call are a black box from the core's point of view). -/
inductive ClientErr where
  | keyError : String → ClientErr
  | apiError : String → ClientErr
deriving DecidableEq, Repr

/-- The exceptions the embedded core can raise. -/
inductive PyErr where
  | nameError : String → PyErr
  | unsupportedProvider : CloudProvider → PyErr
  | missingFields : CloudProvider → List String → PyErr
  | notImplementedError : CloudProvider → PyErr
  | clientError : ClientErr → PyErr
  | minArgEmpty : PyErr
deriving DecidableEq, Repr

/-! ## CacheManager

`self.cache` is a Python dict from string key to `(value, timestamp)`.
We embed it as an insertion-ordered association list with unique keys,
which is exactly a Python dict's observable behaviour: assignment to an
existing key updates it in place (keeping its position), assignment to a
new key appends, and iteration follows insertion order. -/

abbrev Cache := List (String × PyVal × Nat)

/-- `self.cache[key]` as an `Option`. -/
def lookupKey : Cache → String → Option (PyVal × Nat)
  | [], _ => none
  | e :: es, key => if e.1 = key then some e.2 else lookupKey es key

/-- `key in self.cache`. -/
def containsKey (c : Cache) (key : String) : Bool :=
  (lookupKey c key).isSome

/-- `del self.cache[key]`. -/
def eraseKey : Cache → String → Cache
  | [], _ => []
  | e :: es, key => if e.1 = key then es else e :: eraseKey es key

/-- `self.cache[key] = (value, now)`: update in place if present, else append. -/
def insertOrUpdate (c : Cache) (key : String) (v : PyVal) (now : Nat) : Cache :=
  if containsKey c key then
    c.map (fun e => if e.1 = key then (key, v, now) else e)
  else
    c ++ [(key, v, now)]

/-- `min(self.cache.keys(), key=lambda k: self.cache[k][1])`: the entry with
the smallest timestamp; ties keep the earlier entry in iteration order,
exactly as Python's `min` does. Empty dict gives `none` (Python raises). -/
def oldestEntry : Cache → Option (String × PyVal × Nat)
  | [] => none
  | e :: es => some (es.foldl (fun best x => if x.2.2 < best.2.2 then x else best) e)

/-- `CacheManager.get`: under the lock, look up `key`; fresh entries
(`now - timestamp < ttl`) are returned, stale ones are deleted and `None`
is returned, absent keys return `None`.  The result is the returned value
(`None` doubling as the absent sentinel, as in the source) paired with the
cache after the lazy purge. -/
def cacheGet (c : Cache) (ttl now : Nat) (key : String) : PyVal × Cache :=
  match lookupKey c key with
  | none => (.pyNone, c)
  | some (v, t) => if now - t < ttl then (v, c) else (.pyNone, eraseKey c key)

/-- `CacheManager.set`: if the dict already holds `max_size` or more entries,
evict the entry with the minimum timestamp, then insert/overwrite.
`none` models the `ValueError` Python's `min` raises on an empty dict
(reachable only with `max_size = 0`). -/
def cacheSet (c : Cache) (maxSize : Nat) (key : String) (v : PyVal) (now : Nat) :
    Option Cache :=
  if maxSize ≤ c.length then
    match oldestEntry c with
    | none => none
    | some old => some (insertOrUpdate (eraseKey c old.1) key v now)
  else
    some (insertOrUpdate c key v now)

/-- Well-formedness of the embedded dict: keys are pairwise distinct. -/
def WFCache (c : Cache) : Prop := (c.map Prod.fst).Nodup

instance (c : Cache) : Decidable (WFCache c) := by
  unfold WFCache
  infer_instance

/-! ### Cache lemmas -/

theorem lookupKey_eq_none_iff (c : Cache) (key : String) :
    lookupKey c key = none ↔ containsKey c key = false := by
  unfold containsKey
  cases lookupKey c key <;> simp

theorem eraseKey_of_not_contains (c : Cache) (key : String)
    (h : containsKey c key = false) : eraseKey c key = c := by
  induction c with
  | nil => rfl
  | cons e es ih =>
    unfold containsKey lookupKey at h
    by_cases he : e.1 = key
    · simp [he] at h
    · simp only [he, if_neg, not_false_iff] at h
      simp only [eraseKey, he, if_neg, not_false_iff]
      rw [ih h]

theorem eraseKey_length_of_contains (c : Cache) (key : String)
    (h : containsKey c key = true) :
    (eraseKey c key).length = c.length - 1 := by
  induction c with
  | nil => simp [containsKey, lookupKey] at h
  | cons e es ih =>
    by_cases he : e.1 = key
    · simp [eraseKey, he]
    · unfold containsKey lookupKey at h
      simp only [he, if_neg, not_false_iff] at h
      simp only [eraseKey, he, if_neg, not_false_iff, List.length_cons]
      rw [ih h]
      have : 1 ≤ es.length := by
        cases es with
        | nil => simp [containsKey, lookupKey] at h
        | cons _ _ => simp
      omega

theorem eraseKey_length_le (c : Cache) (key : String) :
    (eraseKey c key).length ≤ c.length := by
  induction c with
  | nil => simp [eraseKey]
  | cons e es ih =>
    by_cases he : e.1 = key
    · simp [eraseKey, he]
    · simp only [eraseKey, he, if_neg, not_false_iff, List.length_cons]
      omega

theorem insertOrUpdate_length (c : Cache) (key : String) (v : PyVal) (now : Nat) :
    (insertOrUpdate c key v now).length ≤ c.length + 1 := by
  unfold insertOrUpdate
  by_cases h : containsKey c key
  · simp [h]
  · simp [h]

/-- The running minimum of the timestamp fold is one of the candidates. -/
theorem foldMin_mem (e : String × PyVal × Nat) (es : Cache) :
    es.foldl (fun best x => if x.2.2 < best.2.2 then x else best) e ∈ e :: es := by
  induction es generalizing e with
  | nil => simp
  | cons x xs ih =>
    simp only [List.foldl_cons]
    rcases List.mem_cons.mp (ih (if x.2.2 < e.2.2 then x else e)) with h | h
    · by_cases hx : x.2.2 < e.2.2
      · rw [h]; simp [hx]
      · rw [h]; simp [hx]
    · simp [List.mem_cons, h]

/-- The running minimum of the timestamp fold is no later than the seed. -/
theorem foldMin_le_init (e : String × PyVal × Nat) (es : Cache) :
    (es.foldl (fun best x => if x.2.2 < best.2.2 then x else best) e).2.2 ≤ e.2.2 := by
  induction es generalizing e with
  | nil => simp
  | cons x xs ih =>
    simp only [List.foldl_cons]
    by_cases hx : x.2.2 < e.2.2
    · simp only [hx, if_pos]
      exact le_trans (ih x) (le_of_lt hx)
    · simp only [hx, if_neg, not_false_iff]
      exact ih e

/-- The running minimum of the timestamp fold is no later than any list element. -/
theorem foldMin_le (e : String × PyVal × Nat) (es : Cache) :
    ∀ x ∈ es, (es.foldl (fun best x => if x.2.2 < best.2.2 then x else best) e).2.2 ≤ x.2.2 := by
  induction es generalizing e with
  | nil => simp
  | cons x xs ih =>
    intro y hy
    simp only [List.foldl_cons]
    rcases List.mem_cons.mp hy with hy | hy
    · subst hy
      refine le_trans (foldMin_le_init _ _) ?_
      by_cases hx : y.2.2 < e.2.2
      · simp [hx]
      · simp only [hx, if_neg, not_false_iff]
        omega
    · exact ih _ y hy

theorem oldestEntry_mem (c : Cache) (old : String × PyVal × Nat)
    (h : oldestEntry c = some old) : old ∈ c := by
  cases c with
  | nil => simp [oldestEntry] at h
  | cons e es =>
    simp only [oldestEntry, Option.some.injEq] at h
    rw [← h]
    exact foldMin_mem e es

theorem oldestEntry_min (c : Cache) (old : String × PyVal × Nat)
    (h : oldestEntry c = some old) : ∀ x ∈ c, old.2.2 ≤ x.2.2 := by
  cases c with
  | nil => simp [oldestEntry] at h
  | cons e es =>
    simp only [oldestEntry, Option.some.injEq] at h
    rw [← h]
    intro x hx
    rcases List.mem_cons.mp hx with hx | hx
    · subst hx
      exact foldMin_le_init x es
    · exact foldMin_le e es x hx

theorem oldestEntry_isSome (c : Cache) (h : c ≠ []) : (oldestEntry c).isSome := by
  cases c with
  | nil => exact absurd rfl h
  | cons e es => simp [oldestEntry]

theorem contains_iff_mem_keys (c : Cache) (key : String) :
    containsKey c key = true ↔ key ∈ c.map Prod.fst := by
  induction c with
  | nil => simp [containsKey, lookupKey]
  | cons e es ih =>
    unfold containsKey lookupKey
    by_cases he : e.1 = key
    · simp [he]
    · simp only [he, if_neg, not_false_iff, List.map_cons, List.mem_cons]
      constructor
      · intro h
        exact Or.inr ((ih).mp h)
      · intro h
        rcases h with h | h
        · exact absurd h.symm he
        · exact (ih).mpr h

theorem insertOrUpdate_WF (c : Cache) (key : String) (v : PyVal) (now : Nat)
    (hw : WFCache c) : WFCache (insertOrUpdate c key v now) := by
  unfold insertOrUpdate
  by_cases h : containsKey c key
  · simp only [h, if_pos, WFCache]
    have : (c.map (fun e => if e.1 = key then (key, v, now) else e)).map Prod.fst
        = c.map Prod.fst := by
      rw [List.map_map]
      apply List.map_congr_left
      intro e _
      by_cases he : e.1 = key
      · simp [he]
      · simp [he]
    rw [this]
    exact hw
  · simp only [h, if_neg, Bool.false_eq_true, not_false_iff, WFCache, List.map_append,
      List.map_cons, List.map_nil]
    rw [List.nodup_append]
    refine ⟨hw, List.nodup_singleton key, ?_⟩
    intro a ha hb
    simp only [List.mem_singleton] at hb
    subst hb
    exact absurd ((contains_iff_mem_keys c a).mpr ha) (by simpa using h)

theorem eraseKey_sublist (c : Cache) (key : String) : (eraseKey c key).Sublist c := by
  induction c with
  | nil => simp [eraseKey]
  | cons e es ih =>
    unfold eraseKey
    by_cases he : e.1 = key
    · simp only [he, if_pos]
      exact List.sublist_cons_self e es
    · simp only [he, if_neg, not_false_iff]
      exact List.Sublist.cons₂ e ih

theorem eraseKey_WF (c : Cache) (key : String) (hw : WFCache c) :
    WFCache (eraseKey c key) :=
  List.Nodup.sublist (List.Sublist.map Prod.fst (eraseKey_sublist c key)) hw

theorem lookupKey_eraseKey_self (c : Cache) (key : String) (hw : WFCache c) :
    lookupKey (eraseKey c key) key = none := by
  induction c with
  | nil => rfl
  | cons e es ih =>
    unfold WFCache at hw
    simp only [List.map_cons, List.nodup_cons] at hw
    unfold eraseKey
    by_cases he : e.1 = key
    · simp only [he, if_pos]
      rw [lookupKey_eq_none_iff, ← Bool.not_eq_true, contains_iff_mem_keys]
      rw [he] at hw
      exact hw.1
    · simp only [he, if_neg, not_false_iff, lookupKey]
      exact ih hw.2

/-- One `set` step from a well-formed cache within bound: it never raises,
preserves well-formedness and preserves the size bound (needs `1 ≤ maxSize`;
the source always uses `max_size = 1000`). -/
theorem cacheSet_preserves (c : Cache) (maxSize : Nat) (key : String) (v : PyVal)
    (now : Nat) (hw : WFCache c) (hle : c.length ≤ maxSize) (h1 : 1 ≤ maxSize) :
    ∃ c', cacheSet c maxSize key v now = some c' ∧ WFCache c' ∧ c'.length ≤ maxSize := by
  unfold cacheSet
  by_cases hfull : maxSize ≤ c.length
  · have hne : c ≠ [] := by
      intro hc
      rw [hc] at hfull
      simp at hfull
      omega
    obtain ⟨old, hold⟩ := Option.isSome_iff_exists.mp (oldestEntry_isSome c hne)
    refine ⟨insertOrUpdate (eraseKey c old.1) key v now, ?_, ?_, ?_⟩
    · simp [hfull, hold]
    · exact insertOrUpdate_WF _ _ _ _ (eraseKey_WF c old.1 hw)
    · have hmem := oldestEntry_mem c old hold
      have hcont : containsKey c old.1 = true :=
        (contains_iff_mem_keys c old.1).mpr (List.mem_map_of_mem Prod.fst hmem)
      have herase := eraseKey_length_of_contains c old.1 hcont
      have := insertOrUpdate_length (eraseKey c old.1) key v now
      have hlen : c.length = maxSize := le_antisymm hle hfull
      omega
  · refine ⟨insertOrUpdate c key v now, ?_, insertOrUpdate_WF _ _ _ _ hw, ?_⟩
    · simp [hfull]
    · unfold insertOrUpdate
      by_cases h : containsKey c key
      · simp only [h, if_pos, List.length_map]
        exact hle
      · simp only [h, if_neg, Bool.false_eq_true, not_false_iff, List.length_append,
          List.length_cons, List.length_nil]
        omega

/-- A whole sequence of `set` calls, starting from the empty cache the
constructor builds (`self.cache = {}`); `none` would mean some call raised. -/
def runSets (maxSize : Nat) (ops : List (String × PyVal × Nat)) : Option Cache :=
  ops.foldl (fun acc op => acc.bind (fun c => cacheSet c maxSize op.1 op.2.1 op.2.2))
    (some [])

theorem runSets_inv_from (maxSize : Nat) (h1 : 1 ≤ maxSize)
    (ops : List (String × PyVal × Nat)) :
    ∀ c, WFCache c → c.length ≤ maxSize →
      ∃ c', ops.foldl (fun acc op => acc.bind
          (fun c => cacheSet c maxSize op.1 op.2.1 op.2.2)) (some c) = some c' ∧
        WFCache c' ∧ c'.length ≤ maxSize := by
  induction ops with
  | nil => intro c hw hle; exact ⟨c, rfl, hw, hle⟩
  | cons op ops ih =>
    intro c hw hle
    obtain ⟨c1, hc1, hw1, hle1⟩ := cacheSet_preserves c maxSize op.1 op.2.1 op.2.2 hw hle h1
    obtain ⟨c', hc', hw', hle'⟩ := ih c1 hw1 hle1
    refine ⟨c', ?_, hw', hle'⟩
    simp only [List.foldl_cons, Option.some_bind, hc1]
    exact hc'

/-! ## Credential validation (`_validate_provider_credentials`) -/

/-- A credential record: Python dict from field name to secret value. -/
abbrev CredentialRecord := List (String × String)

/-- Generic association-list lookup (Python dict indexing / `.get`). -/
def assocLookup {α β : Type} [DecidableEq α] : List (α × β) → α → Option β
  | [], _ => none
  | e :: es, k => if e.1 = k then some e.2 else assocLookup es k

/-- `field in credentials` — membership of the key only; values are never read. -/
def credHasField (creds : CredentialRecord) (f : String) : Bool :=
  (assocLookup creds f).isSome

/-- The static `required_fields` table from `_validate_provider_credentials`. -/
def requiredFieldsTable : List (CloudProvider × List String) :=
  [(.AWS, ["access_key", "secret_key", "region"]),
   (.AZURE, ["tenant_id", "client_id", "client_secret", "subscription_id"]),
   (.GCP, ["project_id", "key_file"]),
   (.ORACLE, ["user", "private_key", "tenancy", "region"]),
   (.IBM, ["api_key"])]

/-- `_validate_provider_credentials(provider)`: look the provider up in the
requirement table (`ValueError` if absent — unreachable for the closed enum),
compute the required fields missing from `self.credentials.get(provider, {})`
by key membership, and raise listing all of them if any are missing. -/
def validateProviderCredentials (credentials : List (CloudProvider × CredentialRecord))
    (p : CloudProvider) : Except PyErr Unit :=
  match assocLookup requiredFieldsTable p with
  | none => .error (.unsupportedProvider p)
  | some req =>
    let creds := (assocLookup credentials p).getD []
    let missing := req.filter (fun f => !credHasField creds f)
    if missing.isEmpty then .ok () else .error (.missingFields p missing)

/-! ## RetryPolicy

Modelled from the spec: the retry executor itself lives in the external
`tenacity` library, not in this repository; the spec's §4.3 describes it
(up to 3 total tries; between attempt `i` and `i+1` wait
`min(max(base * 2^i, minWait), maxWait)`; success short-circuits; the final
attempt's failure is propagated unchanged).  The configuration values are the
ones the source constructs: `stop_after_attempt(3)`,
`wait_exponential(multiplier=1, min=4, max=10)`.  The operation is given as a
per-attempt oracle so that an external call may fail on some attempts and
succeed on others. -/

/-- Modelled from the spec: the clamped exponential backoff
`min(max(multiplier * 2^i, minWait), maxWait)` after attempt `i`. -/
def backoffWait (multiplier minWait maxWait i : Nat) : Nat :=
  min (max (multiplier * 2 ^ i) minWait) maxWait

/-- Modelled from the spec: run attempt `i` with `n` further attempts allowed;
returns (outcome, number of invocations made, waits slept between attempts). -/
def retryGo {E A : Type} (op : Nat → Except E A) (waitOf : Nat → Nat) (i : Nat) :
    Nat → Except E A × Nat × List Nat
  | 0 => (op i, 1, [])
  | n + 1 =>
    match op i with
    | .ok a => (.ok a, 1, [])
    | .error _ =>
      let r := retryGo op waitOf (i + 1) n
      (r.1, r.2.1 + 1, waitOf i :: r.2.2)

/-- Modelled from the spec: `execute(operation)` for a policy allowing
`maxAttempts` total tries, starting at attempt 1. -/
def retryExecute {E A : Type} (op : Nat → Except E A) (waitOf : Nat → Nat)
    (maxAttempts : Nat) : Except E A × Nat × List Nat :=
  retryGo op waitOf 1 (maxAttempts - 1)

/-- `stop_after_attempt(3)` from `self.retry_config`. -/
def retryConfigMaxAttempts : Nat := 3

/-- `wait_exponential(multiplier=1, min=4, max=10)` from `self.retry_config`. -/
def retryConfigWait (i : Nat) : Nat := backoffWait 1 4 10 i

/-! ## `_fetch_resource_details` -/

/-- Character-list prefix test. -/
def charListPrefix : List Char → List Char → Bool
  | [], _ => true
  | _ :: _, [] => false
  | a :: as, b :: bs => if a = b then charListPrefix as bs else false

/-- `resource_id.startswith('i-')` for an arbitrary prefix: the first
characters of `s` are exactly `pre`. -/
def strHasPrefix (pre s : String) : Bool :=
  charListPrefix pre.data s.data

/-- One bare invocation of the body of `_fetch_resource_details`.
`awsDescribe` is the opaque provider-client boundary: the whole expression
`self.clients[provider]['ec2'].describe_instances(InstanceIds=[resource_id])`
together with the indexing `['Reservations'][0]['Instances'][0]` into its
response; any exception it raises propagates (the `except` clause only logs
and re-raises).  An AWS id not starting with `"i-"` matches no branch and
falls into the `else` that raises `NotImplementedError`; the AZURE / GCP /
ORACLE / IBM branches are `pass`, so the function returns Python `None`. -/
def fetchOnce (awsDescribe : String → Except ClientErr PyVal) (p : CloudProvider)
    (rid : String) : Except PyErr PyVal :=
  match p with
  | .AWS =>
    if strHasPrefix "i-" rid then
      match awsDescribe rid with
      | .ok v => .ok v
      | .error e => .error (.clientError e)
    else .error (.notImplementedError .AWS)
  | .AZURE => .ok .pyNone
  | .GCP => .ok .pyNone
  | .ORACLE => .ok .pyNone
  | .IBM => .ok .pyNone

/-- `_fetch_resource_details` as dispatched by `get_resource_details`: the
body above wrapped in the configured retry policy.  The pair also reports
how many attempts the policy made (not used by the callers, only by the
theorems).  One call of this function is one dispatch of the fetch path. -/
def fetchResourceDetails (awsDescribe : Nat → String → Except ClientErr PyVal)
    (p : CloudProvider) (rid : String) : Except PyErr PyVal :=
  (retryExecute (fun i => fetchOnce (awsDescribe i) p rid) retryConfigWait
    retryConfigMaxAttempts).1

/-! ## Orchestrator state and `get_resource_details` -/

/-- `f"{provider}:{resource_id}"` — `str` of a Python enum member. -/
def providerName : CloudProvider → String
  | .AWS => "CloudProvider.AWS"
  | .AZURE => "CloudProvider.AZURE"
  | .GCP => "CloudProvider.GCP"
  | .ORACLE => "CloudProvider.ORACLE"
  | .IBM => "CloudProvider.IBM"

/-- The deterministic cache key for a lookup. -/
def cacheKey (p : CloudProvider) (rid : String) : String :=
  providerName p ++ ":" ++ rid

/-- The `lru_cache` memo key of `get_resource_details` (the `self` argument
is the one singleton instance, so the key reduces to the two real arguments). -/
abbrev MemoKey := CloudProvider × String

/-- The mutable state of `MultiCloudOrchestrator` that the fetch pipeline
touches: the `CacheManager` (dict, `max_size`, `ttl`), the credentials map,
and the `lru_cache` memo of `get_resource_details` (most-recent first). -/
structure Orch where
  cache : Cache
  maxSize : Nat
  ttl : Nat
  credentials : List (CloudProvider × CredentialRecord)
  memo : List (MemoKey × PyVal)
deriving Repr

/-- The state `MultiCloudOrchestrator.__init__` builds: empty cache with
`max_size=1000`, `ttl=300`, empty credentials, empty memo. -/
def initialOrch : Orch := ⟨[], 1000, 300, [], []⟩

/-- `functools.lru_cache` lookup: find the memoized value and detach it from
its position (it will be re-attached most-recently-used). -/
def memoExtract : List (MemoKey × PyVal) → MemoKey → Option (PyVal × List (MemoKey × PyVal))
  | [], _ => none
  | e :: es, k =>
    if e.1 = k then some (e.2, es)
    else
      match memoExtract es k with
      | none => none
      | some (v, rest) => some (v, e :: rest)

/-- `functools.lru_cache(maxsize=128)` insertion: newest first, capacity 128
(exceptions are never memoized, matching `functools`). -/
def lruInsert (m : List (MemoKey × PyVal)) (k : MemoKey) (v : PyVal) :
    List (MemoKey × PyVal) :=
  ((k, v) :: m).take 128

/-- Outcome of one `get_resource_details` call: the returned value or raised
exception, the state afterwards, and how many times the fetch path
(`_fetch_resource_details`, i.e. the retry-wrapped provider operation) was
dispatched. -/
structure CallResult where
  result : Except PyErr PyVal
  state : Orch
  fetchCalls : Nat
deriving Repr

/-- The body of `get_resource_details` (underneath the `lru_cache` memo):
compute the cache key, consult the `CacheManager`, and — when the value that
came back is *truthy* (`if cached_data:`) — return it; otherwise dispatch
`_fetch_resource_details` and, on success, store the result.  Note there is
no credential validation anywhere in this body. -/
def getResourceDetailsBody (awsDescribe : Nat → String → Except ClientErr PyVal)
    (st : Orch) (now : Nat) (p : CloudProvider) (rid : String) : CallResult :=
  let key := cacheKey p rid
  let looked := cacheGet st.cache st.ttl now key
  if looked.1.truthy then
    ⟨.ok looked.1, { st with cache := looked.2 }, 0⟩
  else
    match fetchResourceDetails awsDescribe p rid with
    | .error e => ⟨.error e, { st with cache := looked.2 }, 1⟩
    | .ok v =>
      match cacheSet looked.2 st.maxSize key v now with
      | none => ⟨.error .minArgEmpty, { st with cache := looked.2 }, 1⟩
      | some c2 => ⟨.ok v, { st with cache := c2 }, 1⟩

/-- `get_resource_details` as callers see it: the `lru_cache(maxsize=128)`
wrapper around the body.  A memo hit returns the memoized value without
entering the body at all; a memo miss runs the body and memoizes a successful
result. -/
def getResourceDetails (awsDescribe : Nat → String → Except ClientErr PyVal)
    (st : Orch) (now : Nat) (p : CloudProvider) (rid : String) : CallResult :=
  match memoExtract st.memo (p, rid) with
  | some (v, rest) => ⟨.ok v, { st with memo := ((p, rid), v) :: rest }, 0⟩
  | none =>
    let r := getResourceDetailsBody awsDescribe st now p rid
    match r.result with
    | .ok v => ⟨.ok v, { r.state with memo := lruInsert st.memo (p, rid) v }, r.fetchCalls⟩
    | .error e => ⟨.error e, r.state, r.fetchCalls⟩

/-! ## Decorator evaluation at class-definition time

`@retry(**self.retry_config)` on `_initialize_clients` and
`_fetch_resource_details` is evaluated while Python executes the class body
of `MultiCloudOrchestrator`, before any instance exists.  We embed just
enough of Python's name resolution to settle what happens there: an
expression's names are resolved against the bindings in scope, and the first
unbound name raises `NameError`. -/

/-- Python expressions as far as decorator evaluation needs them:
names, attribute access, and a call with a `**kwargs` argument. -/
inductive DecoratorExpr where
  | name : String → DecoratorExpr
  | attrOf : DecoratorExpr → String → DecoratorExpr
  | callKwStar : DecoratorExpr → DecoratorExpr → DecoratorExpr

/-- Evaluate the name references of an expression left to right against the
bindings in scope; the first unbound name raises `NameError` (attribute
access only happens after its base expression's names resolved). -/
def resolveNames (scope : List String) : DecoratorExpr → Except PyErr Unit
  | .name s => if s ∈ scope then .ok () else .error (.nameError s)
  | .attrOf e _ => resolveNames scope e
  | .callKwStar f a =>
    match resolveNames scope f with
    | .error e => .error e
    | .ok () => resolveNames scope a

/-- The decorator expression on lines 71 and 111: `retry(**self.retry_config)`. -/
def retryDecoratorExpr : DecoratorExpr :=
  .callKwStar (.name "retry") (.attrOf (.name "self") "retry_config")

/-- Names bound when the decorator of `_initialize_clients` (line 71) is
evaluated: the module-level imports and definitions of lines 1–57 plus the
class-body names defined so far (only `__init__`).  `self` is a parameter of
the functions, never a binding of the class body or the module. -/
def scopeAtInitializeClients : List String :=
  ["lru_cache", "retry", "stop_after_attempt", "wait_exponential", "psutil",
   "time", "dataclass", "Dict", "Any", "Optional", "threading", "timedelta",
   "datetime", "Enum", "logging", "typer", "Console", "Table", "track",
   "Panel", "logger", "MetricsData", "CloudProvider", "CacheManager",
   "__init__"]

/-- Names bound when the decorator of `_fetch_resource_details` (line 111) is
evaluated: the same, plus the class-body methods defined in between. -/
def scopeAtFetchResourceDetails : List String :=
  scopeAtInitializeClients ++
    ["_initialize_clients", "_validate_provider_credentials",
     "get_resource_details"]

/-! ## Claim theorems -/

/-- Claim C2: for every sequence of `set` calls the cache never holds more
than `maxSize` entries, and a `set` arriving with the map at or above
`maxSize` removes exactly one entry before inserting, namely one with the
minimum `insertedAt` among the entries present at eviction time (requires
`1 ≤ maxSize`; the source always constructs `max_size = 1000`). -/
theorem claim_C2_cache_bound_and_min_eviction (maxSize : Nat) (h1 : 1 ≤ maxSize) :
    (∀ ops : List (String × PyVal × Nat),
      ∃ c, runSets maxSize ops = some c ∧ c.length ≤ maxSize) ∧
    (∀ (c : Cache) (key : String) (v : PyVal) (now : Nat), WFCache c →
      maxSize ≤ c.length →
      ∃ old, oldestEntry c = some old ∧ old ∈ c ∧ (∀ x ∈ c, old.2.2 ≤ x.2.2) ∧
        cacheSet c maxSize key v now
          = some (insertOrUpdate (eraseKey c old.1) key v now) ∧
        (eraseKey c old.1).length + 1 = c.length) := by
  constructor
  · intro ops
    obtain ⟨c, hc, _, hle⟩ := runSets_inv_from maxSize h1 ops []
      (by simp [WFCache]) (by simp)
    refine ⟨c, ?_, hle⟩
    unfold runSets
    exact hc
  · intro c key v now hw hfull
    have hne : c ≠ [] := by
      intro h
      subst h
      simp at hfull
      omega
    obtain ⟨old, hold⟩ := Option.isSome_iff_exists.mp (oldestEntry_isSome c hne)
    have hmem := oldestEntry_mem c old hold
    have hcont : containsKey c old.1 = true :=
      (contains_iff_mem_keys c old.1).mpr (List.mem_map_of_mem Prod.fst hmem)
    refine ⟨old, hold, hmem, oldestEntry_min c old hold, ?_, ?_⟩
    · unfold cacheSet
      simp [hfull, hold]
    · have hlen := eraseKey_length_of_contains c old.1 hcont
      have hpos : 1 ≤ c.length := le_trans h1 hfull
      omega

/-- Concrete instantiation of the C2 theorem at `maxSize = 1`: a two-`set`
sequence never exceeds one entry and never raises. -/
theorem claim_C2_witness :
    ∃ c, runSets 1 [("a", PyVal.pyStr "x", 0), ("b", PyVal.pyStr "y", 1)] = some c ∧
      c.length ≤ 1 :=
  (claim_C2_cache_bound_and_min_eviction 1 (by decide)).1
    [("a", PyVal.pyStr "x", 0), ("b", PyVal.pyStr "y", 1)]

/-- Claim C3: `get` returns the stored value while the entry's age is
strictly below `ttl`; at or past `ttl` it deletes the entry and returns the
absent sentinel; and a non-`None` value is only ever returned while the age
is strictly below `ttl`. -/
theorem claim_C3_cache_get_ttl (c : Cache) (ttl now : Nat) (key : String)
    (hw : WFCache c) :
    (∀ v t, lookupKey c key = some (v, t) → now - t < ttl →
      cacheGet c ttl now key = (v, c)) ∧
    (∀ v t, lookupKey c key = some (v, t) → ttl ≤ now - t →
      cacheGet c ttl now key = (.pyNone, eraseKey c key) ∧
      lookupKey (eraseKey c key) key = none) ∧
    (lookupKey c key = none → cacheGet c ttl now key = (.pyNone, c)) ∧
    (∀ v t, lookupKey c key = some (v, t) →
      (cacheGet c ttl now key).1 ≠ .pyNone → now - t < ttl) := by
  refine ⟨?_, ?_, ?_, ?_⟩
  · intro v t hl hf
    unfold cacheGet
    rw [hl]
    simp [hf]
  · intro v t hl hs
    unfold cacheGet
    rw [hl]
    have hnf : ¬(now - t < ttl) := by omega
    refine ⟨?_, lookupKey_eraseKey_self c key hw⟩
    simp [hnf]
  · intro hl
    unfold cacheGet
    rw [hl]
  · intro v t hl hne
    by_contra hge
    unfold cacheGet at hne
    rw [hl] at hne
    simp [hge] at hne

/-- Concrete instantiation of the C3 theorem: a fresh hit returns the stored
value, a stale entry is purged and reported absent. -/
theorem claim_C3_witness :
    cacheGet [("k", PyVal.pyStr "v", 0)] 300 100 "k"
      = (PyVal.pyStr "v", [("k", PyVal.pyStr "v", 0)]) ∧
    cacheGet [("k", PyVal.pyStr "v", 0)] 300 400 "k"
      = (PyVal.pyNone, eraseKey [("k", PyVal.pyStr "v", 0)] "k") := by
  constructor
  · exact (claim_C3_cache_get_ttl [("k", PyVal.pyStr "v", 0)] 300 100 "k"
      (by decide)).1 (PyVal.pyStr "v") 0 (by decide) (by decide)
  · exact ((claim_C3_cache_get_ttl [("k", PyVal.pyStr "v", 0)] 300 400 "k"
      (by decide)).2.1 (PyVal.pyStr "v") 0 (by decide) (by decide)).1

/-- Unfolding of `_validate_provider_credentials` once the provider's row of
the requirement table is known. -/
theorem validate_eq (credentials : List (CloudProvider × CredentialRecord))
    (p : CloudProvider) (req : List String)
    (hreq : assocLookup requiredFieldsTable p = some req) :
    validateProviderCredentials credentials p =
      (if (req.filter
            (fun f => !credHasField ((assocLookup credentials p).getD []) f)).isEmpty
        then .ok ()
        else .error (.missingFields p (req.filter
          (fun f => !credHasField ((assocLookup credentials p).getD []) f)))) := by
  unfold validateProviderCredentials
  rw [hreq]

/-- Claim C7: validation fails exactly when some required field name is
absent from the supplied record, carrying the full list of missing names in
requirement order, and the test is key-membership only — any two credential
maps with the same key membership validate identically, regardless of the
stored values. -/
theorem claim_C7_validate_missing_fields
    (credentials : List (CloudProvider × CredentialRecord)) (p : CloudProvider) :
    ∃ req, assocLookup requiredFieldsTable p = some req ∧
      (req.filter (fun f => !credHasField ((assocLookup credentials p).getD []) f) = [] →
        validateProviderCredentials credentials p = .ok ()) ∧
      (∀ missing,
        missing = req.filter
          (fun f => !credHasField ((assocLookup credentials p).getD []) f) →
        missing ≠ [] →
        validateProviderCredentials credentials p
          = .error (.missingFields p missing)) ∧
      (∀ credentials' : List (CloudProvider × CredentialRecord),
        (∀ f, credHasField ((assocLookup credentials' p).getD []) f
            = credHasField ((assocLookup credentials p).getD []) f) →
        validateProviderCredentials credentials' p
          = validateProviderCredentials credentials p) := by
  have hex : ∃ req, assocLookup requiredFieldsTable p = some req := by
    cases p <;> exact ⟨_, rfl⟩
  obtain ⟨req, hreq⟩ := hex
  refine ⟨req, hreq, ?_, ?_, ?_⟩
  · intro hm
    rw [validate_eq credentials p req hreq, hm]
    rfl
  · intro missing hmdef hm
    rw [validate_eq credentials p req hreq, ← hmdef]
    have hie : missing.isEmpty = false := by
      cases missing with
      | nil => exact absurd rfl hm
      | cons a l => rfl
    rw [hie]
    simp
  · intro credentials' hsame
    rw [validate_eq credentials p req hreq, validate_eq credentials' p req hreq]
    have hfe : req.filter (fun f => !credHasField ((assocLookup credentials' p).getD []) f)
        = req.filter (fun f => !credHasField ((assocLookup credentials p).getD []) f) := by
      apply List.filter_congr
      intro f _
      rw [hsame f]
    rw [hfe]

/-- Concrete instantiation of the C7 theorem: AWS credentials missing
`region` fail listing exactly `region`; blank-valued but present fields
validate successfully. -/
theorem claim_C7_witness :
    validateProviderCredentials
      [(CloudProvider.AWS, [("access_key", "AK"), ("secret_key", "SK")])]
      CloudProvider.AWS = .error (.missingFields .AWS ["region"]) ∧
    validateProviderCredentials
      [(CloudProvider.AWS, [("access_key", ""), ("secret_key", ""), ("region", "")])]
      CloudProvider.AWS = .ok () := by
  constructor
  · obtain ⟨req, hreq, h1, h2, h3⟩ := claim_C7_validate_missing_fields
      [(CloudProvider.AWS, [("access_key", "AK"), ("secret_key", "SK")])]
      CloudProvider.AWS
    have hre : req = ["access_key", "secret_key", "region"] :=
      Option.some.inj (hreq.symm.trans rfl)
    subst hre
    exact h2 ["region"] (by decide) (by decide)
  · obtain ⟨req, hreq, h1, h2, h3⟩ := claim_C7_validate_missing_fields
      [(CloudProvider.AWS, [("access_key", ""), ("secret_key", ""), ("region", "")])]
      CloudProvider.AWS
    have hre : req = ["access_key", "secret_key", "region"] :=
      Option.some.inj (hreq.symm.trans rfl)
    subst hre
    exact h1 (by decide)

/-- Claim C4 (retry executor modelled from the spec, configuration from the
source): the policy invokes the operation at most 3 times; success on
attempt `k`, after failures on every earlier attempt, returns that result
with exactly `k` invocations; failure on all 3 attempts makes exactly 3
invocations, propagates the third failure, and sleeps the clamped waits
between attempts; the wait after attempt `i` is `min(max(1 * 2^i, 4), 10)`
time-units. -/
theorem claim_C4_retry_policy {E A : Type} (op : Nat → Except E A) :
    ((retryExecute op retryConfigWait retryConfigMaxAttempts).2.1 ≤ 3) ∧
    (∀ k a, 1 ≤ k → k ≤ 3 → (∀ j, 1 ≤ j → j < k → ∃ e, op j = .error e) →
      op k = .ok a →
      (retryExecute op retryConfigWait retryConfigMaxAttempts).1 = .ok a ∧
      (retryExecute op retryConfigWait retryConfigMaxAttempts).2.1 = k) ∧
    (∀ e1 e2 e3, op 1 = .error e1 → op 2 = .error e2 → op 3 = .error e3 →
      retryExecute op retryConfigWait retryConfigMaxAttempts
        = (.error e3, 3, [retryConfigWait 1, retryConfigWait 2])) ∧
    (∀ i, retryConfigWait i = min (max (1 * 2 ^ i) 4) 10) := by
  refine ⟨?_, ?_, ?_, fun i => rfl⟩
  · unfold retryExecute retryConfigMaxAttempts
    cases h1 : op 1 with
    | ok a => simp [retryGo, h1]
    | error e =>
      cases h2 : op 2 with
      | ok a => simp [retryGo, h1, h2]
      | error e2 => simp [retryGo, h1, h2]
  · intro k a hk1 hk3 hprev hok
    interval_cases k
    · constructor <;> simp [retryExecute, retryConfigMaxAttempts, retryGo, hok]
    · obtain ⟨e1, he1⟩ := hprev 1 (by omega) (by omega)
      constructor <;>
        simp [retryExecute, retryConfigMaxAttempts, retryGo, he1, hok]
    · obtain ⟨e1, he1⟩ := hprev 1 (by omega) (by omega)
      obtain ⟨e2, he2⟩ := hprev 2 (by omega) (by omega)
      constructor <;>
        simp [retryExecute, retryConfigMaxAttempts, retryGo, he1, he2, hok]
  · intro e1 e2 e3 h1 h2 h3
    simp [retryExecute, retryConfigMaxAttempts, retryGo, h1, h2, h3]

/-- Concrete instantiation of the C4 theorem: failing on attempts 1–2 and
succeeding on attempt 3 returns the success after exactly 3 invocations;
failing on all attempts propagates the final failure after exactly 3
invocations with waits of 4 and 4 time-units. -/
theorem claim_C4_witness :
    (retryExecute (fun i => if i = 3 then (.ok 0 : Except Nat Nat) else .error i)
        retryConfigWait retryConfigMaxAttempts).1 = .ok 0 ∧
    (retryExecute (fun i => if i = 3 then (.ok 0 : Except Nat Nat) else .error i)
        retryConfigWait retryConfigMaxAttempts).2.1 = 3 ∧
    retryExecute (fun _ => (.error 7 : Except Nat Nat)) retryConfigWait
      retryConfigMaxAttempts = (.error 7, 3, [4, 4]) := by
  have hs := (claim_C4_retry_policy
      (fun i => if i = 3 then (.ok 0 : Except Nat Nat) else .error i)).2.1 3 0
    (by decide) (by decide)
    (fun j hj1 hj3 => ⟨j, by simp [show j ≠ 3 by omega]⟩) (by rfl)
  have hf := (claim_C4_retry_policy (fun _ => (.error 7 : Except Nat Nat))).2.2.1
    7 7 7 rfl rfl rfl
  exact ⟨hs.1, hs.2, by rw [hf]; rfl⟩

/-- Claim C9: the decorator expression `retry(**self.retry_config)` on
`_initialize_clients` (line 71) and `_fetch_resource_details` (line 111) is
evaluated while the class body of `MultiCloudOrchestrator` executes, before
any instance exists; `self` is unbound in both scopes, so evaluation stops
with `NameError` on `self` and the retry configuration can never be
obtained from `self.retry_config` as written. -/
theorem claim_C9_decorator_unbound_self :
    resolveNames scopeAtInitializeClients retryDecoratorExpr
      = .error (.nameError "self") ∧
    resolveNames scopeAtFetchResourceDetails retryDecoratorExpr
      = .error (.nameError "self") :=
  ⟨rfl, rfl⟩

/-- Counterexample to claim C5 as stated: AZURE has no implemented retrieval
logic, yet on a cache miss the fetch does not fail with
`UnsupportedOperationError` — it silently returns the absent result `None`,
both at the fetch dispatch and through `get_resource_details` on an empty
cache. -/
theorem claim_C5_counterexample :
    fetchResourceDetails (fun _ _ => .ok (.pyDict [("x", "y")])) .AZURE "vm-1"
      = .ok .pyNone ∧
    (getResourceDetails (fun _ _ => .ok (.pyDict [("x", "y")])) initialOrch 0
      .AZURE "vm-1").result = .ok .pyNone :=
  ⟨rfl, rfl⟩

/-- Claim C5 amended: only a combination matching no dispatch branch — AWS
with a resource id not starting with `"i-"` — fails with the
unsupported-operation error (`NotImplementedError`); the AZURE, GCP, ORACLE
and IBM branches are empty, so those providers return `None` silently for
every resource id. -/
theorem claim_C5_amended_unimplemented_dispatch
    (awsDescribe : Nat → String → Except ClientErr PyVal) (rid : String) :
    fetchResourceDetails awsDescribe .AZURE rid = .ok .pyNone ∧
    fetchResourceDetails awsDescribe .GCP rid = .ok .pyNone ∧
    fetchResourceDetails awsDescribe .ORACLE rid = .ok .pyNone ∧
    fetchResourceDetails awsDescribe .IBM rid = .ok .pyNone ∧
    (strHasPrefix "i-" rid = false →
      fetchResourceDetails awsDescribe .AWS rid
        = .error (.notImplementedError .AWS)) := by
  refine ⟨rfl, rfl, rfl, rfl, ?_⟩
  intro h
  simp [fetchResourceDetails, retryExecute, retryConfigMaxAttempts, retryGo,
    fetchOnce, h]

/-- Concrete instantiation of the amended C5 theorem. -/
theorem claim_C5_amended_witness :
    fetchResourceDetails (fun _ _ => .ok .pyNone) .AZURE "vm-1" = .ok .pyNone ∧
    fetchResourceDetails (fun _ _ => .ok .pyNone) .AWS "vol-9"
      = .error (.notImplementedError .AWS) :=
  ⟨(claim_C5_amended_unimplemented_dispatch (fun _ _ => .ok .pyNone) "vm-1").1,
   (claim_C5_amended_unimplemented_dispatch (fun _ _ => .ok .pyNone)
     "vol-9").2.2.2.2 (by decide)⟩

/-! ### Unfolding lemmas for `get_resource_details` -/

theorem getResourceDetails_memo_hit_eq
    (awsDescribe : Nat → String → Except ClientErr PyVal) (st : Orch) (now : Nat)
    (p : CloudProvider) (rid : String) (v : PyVal) (rest : List (MemoKey × PyVal))
    (hm : memoExtract st.memo (p, rid) = some (v, rest)) :
    getResourceDetails awsDescribe st now p rid
      = ⟨.ok v, { st with memo := ((p, rid), v) :: rest }, 0⟩ := by
  unfold getResourceDetails
  rw [hm]

theorem getResourceDetails_memo_miss_eq
    (awsDescribe : Nat → String → Except ClientErr PyVal) (st : Orch) (now : Nat)
    (p : CloudProvider) (rid : String)
    (hm : memoExtract st.memo (p, rid) = none) :
    getResourceDetails awsDescribe st now p rid =
      match (getResourceDetailsBody awsDescribe st now p rid).result with
      | .ok v =>
        ⟨.ok v, { (getResourceDetailsBody awsDescribe st now p rid).state with
            memo := lruInsert st.memo (p, rid) v },
          (getResourceDetailsBody awsDescribe st now p rid).fetchCalls⟩
      | .error e =>
        ⟨.error e, (getResourceDetailsBody awsDescribe st now p rid).state,
          (getResourceDetailsBody awsDescribe st now p rid).fetchCalls⟩ := by
  unfold getResourceDetails
  rw [hm]

theorem getResourceDetailsBody_not_truthy_eq
    (awsDescribe : Nat → String → Except ClientErr PyVal) (st : Orch) (now : Nat)
    (p : CloudProvider) (rid : String)
    (ht : (cacheGet st.cache st.ttl now (cacheKey p rid)).1.truthy = false) :
    getResourceDetailsBody awsDescribe st now p rid =
      match fetchResourceDetails awsDescribe p rid with
      | .error e =>
        ⟨.error e,
          { st with cache := (cacheGet st.cache st.ttl now (cacheKey p rid)).2 }, 1⟩
      | .ok v =>
        match cacheSet (cacheGet st.cache st.ttl now (cacheKey p rid)).2 st.maxSize
            (cacheKey p rid) v now with
        | none =>
          ⟨.error .minArgEmpty,
            { st with cache := (cacheGet st.cache st.ttl now (cacheKey p rid)).2 }, 1⟩
        | some c2 => ⟨.ok v, { st with cache := c2 }, 1⟩ := by
  simp only [getResourceDetailsBody, ht, Bool.false_eq_true, if_false]

theorem getResourceDetails_ok_memo_head
    (awsDescribe : Nat → String → Except ClientErr PyVal) (st : Orch) (now : Nat)
    (p : CloudProvider) (rid : String) (v : PyVal)
    (h : (getResourceDetails awsDescribe st now p rid).result = .ok v) :
    ∃ rest, (getResourceDetails awsDescribe st now p rid).state.memo
      = ((p, rid), v) :: rest := by
  cases hm : memoExtract st.memo (p, rid) with
  | some pr =>
    obtain ⟨w, rest⟩ := pr
    rw [getResourceDetails_memo_hit_eq awsDescribe st now p rid w rest hm] at h ⊢
    simp only [Except.ok.injEq] at h
    subst h
    exact ⟨rest, rfl⟩
  | none =>
    rw [getResourceDetails_memo_miss_eq awsDescribe st now p rid hm] at h ⊢
    cases hr : (getResourceDetailsBody awsDescribe st now p rid).result with
    | ok w =>
      rw [hr] at h
      simp at h
      subst h
      exact ⟨st.memo.take 127, rfl⟩
    | error e =>
      rw [hr] at h
      simp at h

theorem getResourceDetailsBody_fetchCalls_le_one
    (awsDescribe : Nat → String → Except ClientErr PyVal) (st : Orch) (now : Nat)
    (p : CloudProvider) (rid : String) :
    (getResourceDetailsBody awsDescribe st now p rid).fetchCalls ≤ 1 := by
  unfold getResourceDetailsBody
  by_cases ht : (cacheGet st.cache st.ttl now (cacheKey p rid)).1.truthy
  · simp [ht]
  · cases hf : fetchResourceDetails awsDescribe p rid with
    | error e => simp [ht, hf]
    | ok w =>
      cases hcs : cacheSet (cacheGet st.cache st.ttl now (cacheKey p rid)).2
          st.maxSize (cacheKey p rid) w now with
      | none => simp [ht, hf, hcs]
      | some c2 => simp [ht, hf, hcs]

theorem getResourceDetails_fetchCalls_le_one
    (awsDescribe : Nat → String → Except ClientErr PyVal) (st : Orch) (now : Nat)
    (p : CloudProvider) (rid : String) :
    (getResourceDetails awsDescribe st now p rid).fetchCalls ≤ 1 := by
  cases hm : memoExtract st.memo (p, rid) with
  | some pr =>
    obtain ⟨w, rest⟩ := pr
    rw [getResourceDetails_memo_hit_eq awsDescribe st now p rid w rest hm]
    simp
  | none =>
    rw [getResourceDetails_memo_miss_eq awsDescribe st now p rid hm]
    have hb := getResourceDetailsBody_fetchCalls_le_one awsDescribe st now p rid
    cases hr : (getResourceDetailsBody awsDescribe st now p rid).result with
    | ok w => exact hb
    | error e => exact hb

/-! ### Error provenance -/

theorem retryGo_error_src {E A : Type} (op : Nat → Except E A) (w : Nat → Nat) :
    ∀ n i e, (retryGo op w i n).1 = .error e → ∃ j, op j = .error e := by
  intro n
  induction n with
  | zero =>
    intro i e h
    exact ⟨i, h⟩
  | succ n ih =>
    intro i e h
    cases hop : op i with
    | ok a => simp [retryGo, hop] at h
    | error e0 =>
      simp only [retryGo, hop] at h
      exact ih (i + 1) e h

theorem fetchOnce_error_classes (aws : String → Except ClientErr PyVal)
    (p : CloudProvider) (rid : String) (e : PyErr)
    (h : fetchOnce aws p rid = .error e) :
    (∃ ce, e = .clientError ce) ∨ e = .notImplementedError .AWS := by
  cases p with
  | AWS =>
    by_cases hp : strHasPrefix "i-" rid
    · cases hw : aws rid with
      | ok v => simp [fetchOnce, hp, hw] at h
      | error ce =>
        simp [fetchOnce, hp, hw] at h
        exact Or.inl ⟨ce, h.symm⟩
    · simp [fetchOnce, hp] at h
      exact Or.inr h.symm
  | AZURE => simp [fetchOnce] at h
  | GCP => simp [fetchOnce] at h
  | ORACLE => simp [fetchOnce] at h
  | IBM => simp [fetchOnce] at h

theorem fetchResourceDetails_error_classes
    (awsDescribe : Nat → String → Except ClientErr PyVal) (p : CloudProvider)
    (rid : String) (e : PyErr)
    (h : fetchResourceDetails awsDescribe p rid = .error e) :
    (∃ ce, e = .clientError ce) ∨ e = .notImplementedError .AWS := by
  obtain ⟨j, hj⟩ := retryGo_error_src (fun i => fetchOnce (awsDescribe i) p rid)
    retryConfigWait (retryConfigMaxAttempts - 1) 1 e h
  exact fetchOnce_error_classes (awsDescribe j) p rid e hj

theorem getResourceDetailsBody_error_src
    (awsDescribe : Nat → String → Except ClientErr PyVal) (st : Orch) (now : Nat)
    (p : CloudProvider) (rid : String) (e : PyErr)
    (h : (getResourceDetailsBody awsDescribe st now p rid).result = .error e) :
    e = .minArgEmpty ∨ fetchResourceDetails awsDescribe p rid = .error e := by
  by_cases ht : (cacheGet st.cache st.ttl now (cacheKey p rid)).1.truthy
  · simp [getResourceDetailsBody, ht] at h
  · simp only [Bool.not_eq_true] at ht
    rw [getResourceDetailsBody_not_truthy_eq awsDescribe st now p rid ht] at h
    cases hf : fetchResourceDetails awsDescribe p rid with
    | error e0 =>
      rw [hf] at h
      simp at h
      subst h
      exact Or.inr rfl
    | ok v =>
      rw [hf] at h
      cases hcs : cacheSet (cacheGet st.cache st.ttl now (cacheKey p rid)).2
          st.maxSize (cacheKey p rid) v now with
      | none =>
        simp [hcs] at h
        exact Or.inl h.symm
      | some c2 =>
        simp [hcs] at h

/-- The body of `get_resource_details` never touches the orchestrator's
credentials: its outcome, cache effect and fetch count agree for any two
credential maps, and it leaves the memo untouched. -/
theorem getResourceDetailsBody_ignores_credentials
    (awsDescribe : Nat → String → Except ClientErr PyVal) (cache : Cache)
    (maxS ttl : Nat) (creds creds' : List (CloudProvider × CredentialRecord))
    (memo : List (MemoKey × PyVal)) (now : Nat) (p : CloudProvider) (rid : String) :
    (getResourceDetailsBody awsDescribe ⟨cache, maxS, ttl, creds, memo⟩ now p rid).result
      = (getResourceDetailsBody awsDescribe ⟨cache, maxS, ttl, creds', memo⟩ now p rid).result ∧
    (getResourceDetailsBody awsDescribe ⟨cache, maxS, ttl, creds, memo⟩ now p rid).state.cache
      = (getResourceDetailsBody awsDescribe ⟨cache, maxS, ttl, creds', memo⟩ now p rid).state.cache ∧
    (getResourceDetailsBody awsDescribe ⟨cache, maxS, ttl, creds, memo⟩ now p rid).state.memo
      = memo ∧
    (getResourceDetailsBody awsDescribe ⟨cache, maxS, ttl, creds', memo⟩ now p rid).state.memo
      = memo ∧
    (getResourceDetailsBody awsDescribe ⟨cache, maxS, ttl, creds, memo⟩ now p rid).fetchCalls
      = (getResourceDetailsBody awsDescribe ⟨cache, maxS, ttl, creds', memo⟩ now p rid).fetchCalls := by
  unfold getResourceDetailsBody
  by_cases ht : (cacheGet cache ttl now (cacheKey p rid)).1.truthy
  · simp [ht]
  · simp only [Bool.not_eq_true] at ht
    cases hf : fetchResourceDetails awsDescribe p rid with
    | error e => simp [ht, hf]
    | ok v =>
      cases hcs : cacheSet (cacheGet cache ttl now (cacheKey p rid)).2 maxS
          (cacheKey p rid) v now with
      | none => simp [ht, hf, hcs]
      | some c2 => simp [ht, hf, hcs]

/-- Counterexample to claim C1 as stated: with AWS credentials missing
`region` — on which the validator fails listing exactly `region` —
`get_resource_details` does not fail with `MissingFieldsError`: it performs
the cache lookup, dispatches the provider fetch once, and returns the
fetched payload.  Credential validation is not its first step; it never
happens there at all. -/
theorem claim_C1_counterexample :
    validateProviderCredentials
      [(CloudProvider.AWS, [("access_key", "AK"), ("secret_key", "SK")])]
      CloudProvider.AWS = .error (.missingFields .AWS ["region"]) ∧
    (getResourceDetails (fun _ rid => .ok (.pyDict [("InstanceId", rid)]))
      ⟨[], 1000, 300, [(CloudProvider.AWS, [("access_key", "AK"), ("secret_key", "SK")])], []⟩
      0 .AWS "i-0123").result = .ok (.pyDict [("InstanceId", "i-0123")]) ∧
    (getResourceDetails (fun _ rid => .ok (.pyDict [("InstanceId", rid)]))
      ⟨[], 1000, 300, [(CloudProvider.AWS, [("access_key", "AK"), ("secret_key", "SK")])], []⟩
      0 .AWS "i-0123").fetchCalls = 1 :=
  ⟨rfl, rfl, rfl⟩

/-- Claim C1 amended: `get_resource_details` performs no credential
validation — its result, cache effect, memo effect and fetch-dispatch count
are independent of the stored credentials, and it can never fail with the
validator's `MissingFieldsError`; a call with missing-field credentials
proceeds straight to cache lookup and fetch.  (Validation runs only in
`_initialize_clients`.) -/
theorem claim_C1_amended_get_skips_validation
    (awsDescribe : Nat → String → Except ClientErr PyVal) (cache : Cache)
    (maxS ttl : Nat) (creds creds' : List (CloudProvider × CredentialRecord))
    (memo : List (MemoKey × PyVal)) (now : Nat) (p : CloudProvider) (rid : String) :
    (getResourceDetails awsDescribe ⟨cache, maxS, ttl, creds, memo⟩ now p rid).result
      = (getResourceDetails awsDescribe ⟨cache, maxS, ttl, creds', memo⟩ now p rid).result ∧
    (getResourceDetails awsDescribe ⟨cache, maxS, ttl, creds, memo⟩ now p rid).state.cache
      = (getResourceDetails awsDescribe ⟨cache, maxS, ttl, creds', memo⟩ now p rid).state.cache ∧
    (getResourceDetails awsDescribe ⟨cache, maxS, ttl, creds, memo⟩ now p rid).state.memo
      = (getResourceDetails awsDescribe ⟨cache, maxS, ttl, creds', memo⟩ now p rid).state.memo ∧
    (getResourceDetails awsDescribe ⟨cache, maxS, ttl, creds, memo⟩ now p rid).fetchCalls
      = (getResourceDetails awsDescribe ⟨cache, maxS, ttl, creds', memo⟩ now p rid).fetchCalls ∧
    (∀ q fs, (getResourceDetails awsDescribe ⟨cache, maxS, ttl, creds, memo⟩ now p rid).result
      ≠ .error (.missingFields q fs)) := by
  have hnm : ∀ q fs,
      (getResourceDetails awsDescribe ⟨cache, maxS, ttl, creds, memo⟩ now p rid).result
        ≠ .error (.missingFields q fs) := by
    intro q fs hcon
    cases hm : memoExtract memo (p, rid) with
    | some pr =>
      obtain ⟨w, rest⟩ := pr
      rw [getResourceDetails_memo_hit_eq awsDescribe ⟨cache, maxS, ttl, creds, memo⟩
        now p rid w rest hm] at hcon
      simp at hcon
    | none =>
      rw [getResourceDetails_memo_miss_eq awsDescribe ⟨cache, maxS, ttl, creds, memo⟩
        now p rid hm] at hcon
      cases hr : (getResourceDetailsBody awsDescribe ⟨cache, maxS, ttl, creds, memo⟩
          now p rid).result with
      | ok w =>
        rw [hr] at hcon
        simp at hcon
      | error e0 =>
        rw [hr] at hcon
        simp at hcon
        subst hcon
        rcases getResourceDetailsBody_error_src awsDescribe
            ⟨cache, maxS, ttl, creds, memo⟩ now p rid _ hr with h | h
        · simp at h
        · rcases fetchResourceDetails_error_classes awsDescribe p rid _ h with ⟨ce, hce⟩ | hni
          · simp at hce
          · simp at hni
  have h4 :
      (getResourceDetails awsDescribe ⟨cache, maxS, ttl, creds, memo⟩ now p rid).result
        = (getResourceDetails awsDescribe ⟨cache, maxS, ttl, creds', memo⟩ now p rid).result ∧
      (getResourceDetails awsDescribe ⟨cache, maxS, ttl, creds, memo⟩ now p rid).state.cache
        = (getResourceDetails awsDescribe ⟨cache, maxS, ttl, creds', memo⟩ now p rid).state.cache ∧
      (getResourceDetails awsDescribe ⟨cache, maxS, ttl, creds, memo⟩ now p rid).state.memo
        = (getResourceDetails awsDescribe ⟨cache, maxS, ttl, creds', memo⟩ now p rid).state.memo ∧
      (getResourceDetails awsDescribe ⟨cache, maxS, ttl, creds, memo⟩ now p rid).fetchCalls
        = (getResourceDetails awsDescribe ⟨cache, maxS, ttl, creds', memo⟩ now p rid).fetchCalls := by
    cases hm : memoExtract memo (p, rid) with
    | some pr =>
      obtain ⟨w, rest⟩ := pr
      rw [getResourceDetails_memo_hit_eq awsDescribe ⟨cache, maxS, ttl, creds, memo⟩
            now p rid w rest hm,
          getResourceDetails_memo_hit_eq awsDescribe ⟨cache, maxS, ttl, creds', memo⟩
            now p rid w rest hm]
      exact ⟨rfl, rfl, rfl, rfl⟩
    | none =>
      rw [getResourceDetails_memo_miss_eq awsDescribe ⟨cache, maxS, ttl, creds, memo⟩
            now p rid hm,
          getResourceDetails_memo_miss_eq awsDescribe ⟨cache, maxS, ttl, creds', memo⟩
            now p rid hm]
      obtain ⟨hres, hcache, hmemo1, hmemo2, hcalls⟩ :=
        getResourceDetailsBody_ignores_credentials awsDescribe cache maxS ttl
          creds creds' memo now p rid
      cases hr : (getResourceDetailsBody awsDescribe ⟨cache, maxS, ttl, creds, memo⟩
          now p rid).result with
      | ok w =>
        have hr' : (getResourceDetailsBody awsDescribe ⟨cache, maxS, ttl, creds', memo⟩
            now p rid).result = .ok w := by
          rw [← hres, hr]
        rw [hr']
        exact ⟨by simp, by simp [hcache], by simp, by simp [hcalls]⟩
      | error e =>
        have hr' : (getResourceDetailsBody awsDescribe ⟨cache, maxS, ttl, creds', memo⟩
            now p rid).result = .error e := by
          rw [← hres, hr]
        rw [hr']
        exact ⟨by simp, by simp [hcache], by simp [hmemo1, hmemo2], by simp [hcalls]⟩
  exact ⟨h4.1, h4.2.1, h4.2.2.1, h4.2.2.2, hnm⟩

/-- Concrete instantiation of the amended C1 theorem: the same call with
missing-field AWS credentials and with no credentials at all returns the
same result, and that result is not `MissingFieldsError(AWS, [region])`. -/
theorem claim_C1_amended_witness :
    (getResourceDetails (fun _ rid => .ok (.pyDict [("InstanceId", rid)]))
        ⟨[], 1000, 300, [(CloudProvider.AWS, [("access_key", "AK"), ("secret_key", "SK")])], []⟩
        0 .AWS "i-0123").result
      = (getResourceDetails (fun _ rid => .ok (.pyDict [("InstanceId", rid)]))
        ⟨[], 1000, 300, [], []⟩ 0 .AWS "i-0123").result ∧
    (getResourceDetails (fun _ rid => .ok (.pyDict [("InstanceId", rid)]))
        ⟨[], 1000, 300, [(CloudProvider.AWS, [("access_key", "AK"), ("secret_key", "SK")])], []⟩
        0 .AWS "i-0123").result ≠ .error (.missingFields .AWS ["region"]) := by
  have h := claim_C1_amended_get_skips_validation
    (fun _ rid => .ok (.pyDict [("InstanceId", rid)])) [] 1000 300
    [(CloudProvider.AWS, [("access_key", "AK"), ("secret_key", "SK")])] [] []
    0 .AWS "i-0123"
  exact ⟨h.1, h.2.2.2.2 .AWS ["region"]⟩

/-- Claim C6: two successive `get_resource_details` calls for the same
(provider, resourceId) within the TTL window — given the first returns a
value — dispatch the underlying provider fetch operation at most once in
total, and the second call returns a value identical to the first call's
result (served from the `lru_cache` memo the first call populated). -/
theorem claim_C6_repeat_call_idempotent
    (awsDescribe : Nat → String → Except ClientErr PyVal) (st : Orch)
    (now1 now2 : Nat) (p : CloudProvider) (rid : String) (v : PyVal)
    (h1 : (getResourceDetails awsDescribe st now1 p rid).result = .ok v)
    (httl : now2 - now1 < st.ttl) :
    (getResourceDetails awsDescribe
      (getResourceDetails awsDescribe st now1 p rid).state now2 p rid).result
      = .ok v ∧
    (getResourceDetails awsDescribe st now1 p rid).fetchCalls
      + (getResourceDetails awsDescribe
          (getResourceDetails awsDescribe st now1 p rid).state now2 p rid).fetchCalls
      ≤ 1 := by
  obtain ⟨rest, hhead⟩ := getResourceDetails_ok_memo_head awsDescribe st now1 p rid v h1
  have hm2 : memoExtract (getResourceDetails awsDescribe st now1 p rid).state.memo
      (p, rid) = some (v, rest) := by
    rw [hhead]
    simp [memoExtract]
  rw [getResourceDetails_memo_hit_eq awsDescribe
    (getResourceDetails awsDescribe st now1 p rid).state now2 p rid v rest hm2]
  have hle := getResourceDetails_fetchCalls_le_one awsDescribe st now1 p rid
  exact ⟨rfl, by simpa using hle⟩

/-- Concrete instantiation of the C6 theorem: two immediate calls for
`(AWS, "i-0123")` return the same payload and dispatch the fetch path at
most once in total. -/
theorem claim_C6_witness :
    (getResourceDetails (fun _ rid => .ok (.pyDict [("InstanceId", rid)]))
      (getResourceDetails (fun _ rid => .ok (.pyDict [("InstanceId", rid)]))
        initialOrch 0 .AWS "i-0123").state 0 .AWS "i-0123").result
      = .ok (.pyDict [("InstanceId", "i-0123")]) ∧
    (getResourceDetails (fun _ rid => .ok (.pyDict [("InstanceId", rid)]))
        initialOrch 0 .AWS "i-0123").fetchCalls
      + (getResourceDetails (fun _ rid => .ok (.pyDict [("InstanceId", rid)]))
          (getResourceDetails (fun _ rid => .ok (.pyDict [("InstanceId", rid)]))
            initialOrch 0 .AWS "i-0123").state 0 .AWS "i-0123").fetchCalls ≤ 1 :=
  claim_C6_repeat_call_idempotent (fun _ rid => .ok (.pyDict [("InstanceId", rid)]))
    initialOrch 0 0 .AWS "i-0123" (.pyDict [("InstanceId", "i-0123")]) rfl (by decide)

/-- Claim C8: when the fetch path fails (including after the retry policy is
exhausted), `get_resource_details` propagates that failure — the spec's
`FetchError` — and aborts; nothing is stored: the cache afterwards is
exactly what the lookup step left (at most the lazy purge of a stale
entry), the memo is untouched, and any entry found under the computed key
afterwards was already present, with the same value and timestamp, before
the call. -/
theorem claim_C8_failed_fetch_never_cached
    (awsDescribe : Nat → String → Except ClientErr PyVal) (st : Orch) (now : Nat)
    (p : CloudProvider) (rid : String) (e : PyErr)
    (hw : WFCache st.cache)
    (hm : memoExtract st.memo (p, rid) = none)
    (ht : (cacheGet st.cache st.ttl now (cacheKey p rid)).1.truthy = false)
    (hf : fetchResourceDetails awsDescribe p rid = .error e) :
    (getResourceDetails awsDescribe st now p rid).result = .error e ∧
    (getResourceDetails awsDescribe st now p rid).state.cache
      = (cacheGet st.cache st.ttl now (cacheKey p rid)).2 ∧
    (getResourceDetails awsDescribe st now p rid).state.memo = st.memo ∧
    (∀ w t, lookupKey (getResourceDetails awsDescribe st now p rid).state.cache
        (cacheKey p rid) = some (w, t) →
      lookupKey st.cache (cacheKey p rid) = some (w, t)) := by
  rw [getResourceDetails_memo_miss_eq awsDescribe st now p rid hm,
    getResourceDetailsBody_not_truthy_eq awsDescribe st now p rid ht, hf]
  refine ⟨rfl, rfl, rfl, ?_⟩
  intro w t hlk
  simp only [] at hlk
  cases hl : lookupKey st.cache (cacheKey p rid) with
  | none =>
    have hsnd : (cacheGet st.cache st.ttl now (cacheKey p rid)).2 = st.cache := by
      unfold cacheGet
      rw [hl]
    rw [hsnd] at hlk
    rw [hl] at hlk
    cases hlk
  | some vt =>
    obtain ⟨v0, t0⟩ := vt
    by_cases hfr : now - t0 < st.ttl
    · have hsnd : (cacheGet st.cache st.ttl now (cacheKey p rid)).2 = st.cache := by
        unfold cacheGet
        rw [hl]
        simp [hfr]
      rw [hsnd] at hlk
      rw [← hl]
      exact hlk
    · have hsnd : (cacheGet st.cache st.ttl now (cacheKey p rid)).2
          = eraseKey st.cache (cacheKey p rid) := by
        unfold cacheGet
        rw [hl]
        simp [hfr]
      rw [hsnd] at hlk
      rw [lookupKey_eraseKey_self st.cache (cacheKey p rid) hw] at hlk
      cases hlk

/-- Concrete instantiation of the C8 theorem: a fetch failing on every retry
attempt surfaces its failure and leaves the (empty) cache and memo
unchanged. -/
theorem claim_C8_witness :
    (getResourceDetails (fun _ _ => .error (.apiError "boom")) initialOrch 0
      .AWS "i-1").result = .error (.clientError (.apiError "boom")) ∧
    (getResourceDetails (fun _ _ => .error (.apiError "boom")) initialOrch 0
      .AWS "i-1").state.cache
      = (cacheGet initialOrch.cache initialOrch.ttl 0 (cacheKey .AWS "i-1")).2 ∧
    (getResourceDetails (fun _ _ => .error (.apiError "boom")) initialOrch 0
      .AWS "i-1").state.memo = initialOrch.memo := by
  have h := claim_C8_failed_fetch_never_cached (fun _ _ => .error (.apiError "boom"))
    initialOrch 0 .AWS "i-1" (.clientError (.apiError "boom"))
    (by decide) rfl rfl rfl
  exact ⟨h.1, h.2.1, h.2.2.1⟩

/-- Claim C10: a stored cache value that is falsy — `None`, as the four
empty provider branches produce, or an empty dict — is treated as a miss by
the truthiness test `if cached_data:`, so `get_resource_details` dispatches
the fetch path again even though a fresh entry for the key is present. -/
theorem claim_C10_falsy_value_refetches
    (awsDescribe : Nat → String → Except ClientErr PyVal) (st : Orch) (now : Nat)
    (p : CloudProvider) (rid : String) (v : PyVal) (t : Nat)
    (hm : memoExtract st.memo (p, rid) = none)
    (hl : lookupKey st.cache (cacheKey p rid) = some (v, t))
    (hfresh : now - t < st.ttl)
    (hfalsy : v.truthy = false) :
    (getResourceDetails awsDescribe st now p rid).fetchCalls = 1 := by
  have ht : (cacheGet st.cache st.ttl now (cacheKey p rid)).1.truthy = false := by
    unfold cacheGet
    rw [hl]
    simp [hfresh, hfalsy]
  rw [getResourceDetails_memo_miss_eq awsDescribe st now p rid hm,
    getResourceDetailsBody_not_truthy_eq awsDescribe st now p rid ht]
  cases hfr : fetchResourceDetails awsDescribe p rid with
  | error e => simp
  | ok w =>
    cases hcs : cacheSet (cacheGet st.cache st.ttl now (cacheKey p rid)).2
        st.maxSize (cacheKey p rid) w now with
    | none => simp [hcs]
    | some c2 => simp [hcs]

/-- Concrete instantiation of the C10 theorem: a fresh cached `None` for an
AZURE resource does not count as a hit; the fetch path runs again. -/
theorem claim_C10_witness :
    (getResourceDetails (fun _ _ => .ok .pyNone)
      ⟨[("CloudProvider.AZURE:r", PyVal.pyNone, 0)], 1000, 300, [], []⟩
      0 .AZURE "r").fetchCalls = 1 :=
  claim_C10_falsy_value_refetches (fun _ _ => .ok .pyNone)
    ⟨[("CloudProvider.AZURE:r", PyVal.pyNone, 0)], 1000, 300, [], []⟩
    0 .AZURE "r" .pyNone 0 rfl rfl (by decide) rfl

end Orchestrator
